import Mathlib

/-!
Verification development for the production-breakdown tool server
(`server.js`).  The definitions below are a shallow embedding of the
server's data model and operations: text is modelled as `List Char`,
machine integers as `Nat`, fallible operations as `Except`, and the
external extraction / rendering / summarization services as oracles
carried by the request environment.
-/

namespace ProductionBreakdown

/-! ## Configuration constants (server.js lines 27-51) -/

def PDF_TEXT_CHUNK_CHARS : Nat := 12000
def PDF_TEXT_CHUNK_OVERLAP : Nat := 600
def MULTIPASS_THRESHOLD_CHARS : Nat := 40000
def MAX_FILES : Nat := 10
def VISUAL_FALLBACK_MIN_TEXT_CHARS : Nat := 1500
def VISUAL_FALLBACK_MAX_CHARS_PER_PAGE : Nat := 120
def VISUAL_RENDER_MAX_PAGES : Nat := 6

/-! ## Chunker (server.js `chunkText`, lines 218-233) -/

/-- JavaScript `String.prototype.trim` whitespace test, restricted to the
whitespace characters relevant here (ASCII whitespace plus NBSP/BOM). -/
def isJsWhitespace (c : Char) : Bool :=
  c == ' ' || c == '\t' || c == '\n' || c == '\r' ||
  c == '\u000B' || c == '\u000C' || c == ' ' || c == '﻿'

/-- `text.replace(/\r\n/g, "\n")`: global left-to-right non-overlapping
replacement of the two-character sequence CR LF by LF. -/
def normalizeNewlines : List Char → List Char
  | [] => []
  | [c] => [c]
  | c :: d :: rest =>
    if c = '\r' ∧ d = '\n' then '\n' :: normalizeNewlines rest
    else c :: normalizeNewlines (d :: rest)

/-- The `while (start < clean.length)` loop of `chunkText`.  The JS loop
terminates only when `overlap < chunkSize`; we thread explicit fuel
(`clean.length + 1` at the call site suffices in that case). -/
def chunkLoop (clean : List Char) (chunkSize overlap : Nat) :
    Nat → Nat → List (List Char)
  | _, 0 => []
  | start, fuel + 1 =>
    if start < clean.length then
      let e := min (start + chunkSize) clean.length
      let c := (clean.drop start).take (e - start)
      if clean.length ≤ e then [c]
      else c :: chunkLoop clean chunkSize overlap (e - overlap) fuel
    else []

/-- `chunkText(text, chunkSize, overlap)` (server.js lines 218-233). -/
def chunkText (text : List Char) (chunkSize overlap : Nat) : List (List Char) :=
  let clean := normalizeNewlines text
  if clean.all isJsWhitespace then []
  else chunkLoop clean chunkSize overlap 0 (clean.length + 1)

/-- "Concatenating the chunks with the `overlap`-character overlaps
removed": keep the first chunk whole, drop the first `overlap` characters
of every later chunk, and concatenate. -/
def dropOverlaps (overlap : Nat) : List (List Char) → List Char
  | [] => []
  | c :: rest => c ++ (rest.map (List.drop overlap)).flatten

/-! ### Chunker lemmas -/

lemma normalizeNewlines_cons_ne (c : Char) (l : List Char) (hc : c ≠ '\r') :
    normalizeNewlines (c :: l) = c :: normalizeNewlines l := by
  cases l with
  | nil => rfl
  | cons d l' => simp [normalizeNewlines, hc]

lemma normalizeNewlines_no_cr : ∀ l : List Char, '\r' ∉ l → normalizeNewlines l = l
  | [], _ => rfl
  | c :: rest, h => by
    have hc : c ≠ '\r' := fun e => h (by simp [e])
    have hr : '\r' ∉ rest := fun hm => h (List.mem_cons_of_mem c hm)
    rw [normalizeNewlines_cons_ne c rest hc, normalizeNewlines_no_cr rest hr]

/-- Flattening the tails of the chunks produced from offset `start`
recovers the suffix of the text from offset `start + O`. -/
lemma chunkLoop_map_drop (clean : List Char) (W O : Nat) (hO : O < W) :
    ∀ fuel start, start < clean.length → clean.length - start ≤ fuel →
      ((chunkLoop clean W O start fuel).map (List.drop O)).flatten =
        clean.drop (start + O)
  | 0, start, h1, h2 => by omega
  | fuel + 1, start, h1, h2 => by
    rw [chunkLoop]
    simp only [h1, if_true]
    by_cases he : clean.length ≤ start + W
    · have he' : min (start + W) clean.length = clean.length := by omega
      rw [he', if_pos (le_refl _)]
      simp only [List.map, List.flatten, List.append_nil]
      have htake : (clean.drop start).take (clean.length - start) = clean.drop start :=
        List.take_of_length_le (by simp [List.length_drop])
      rw [htake, List.drop_drop]
    · have hlt : start + W < clean.length := by omega
      have he' : min (start + W) clean.length = start + W := by omega
      rw [he', if_neg he]
      simp only [List.map, List.flatten]
      rw [chunkLoop_map_drop clean W O hO fuel (start + W - O) (by omega) (by omega)]
      have harith : start + W - O + O = start + W := by omega
      rw [harith]
      have hc : (start + W) - start = W := by omega
      rw [hc, List.drop_take, List.drop_drop]
      have hsplit : clean.drop (start + W) =
          List.drop (W - O) (List.drop (start + O) clean) := by
        rw [List.drop_drop]; congr 1; omega
      rw [hsplit, List.take_append_drop]

/-- Core reconstruction: from any offset `start` still inside the text,
the chunks produced by the loop, concatenated with overlaps removed,
recover exactly the suffix of the text from `start`. -/
lemma chunkLoop_dropOverlaps (clean : List Char) (W O : Nat) (hO : O < W)
    (fuel start : Nat) (h1 : start < clean.length)
    (h2 : clean.length - start ≤ fuel) :
    dropOverlaps O (chunkLoop clean W O start fuel) = clean.drop start := by
  cases fuel with
  | zero => omega
  | succ f =>
    rw [chunkLoop]
    simp only [h1, if_true]
    by_cases he : clean.length ≤ start + W
    · have he' : min (start + W) clean.length = clean.length := by omega
      rw [he', if_pos (le_refl _)]
      simp only [dropOverlaps, List.map, List.flatten, List.append_nil]
      exact List.take_of_length_le (by simp [List.length_drop])
    · have hlt : start + W < clean.length := by omega
      have he' : min (start + W) clean.length = start + W := by omega
      rw [he', if_neg he]
      simp only [dropOverlaps]
      rw [chunkLoop_map_drop clean W O hO f (start + W - O) (by omega) (by omega)]
      have harith : start + W - O + O = start + W := by omega
      rw [harith]
      have hc : (start + W) - start = W := by omega
      rw [hc]
      have hsplit : clean.drop (start + W) = List.drop W (clean.drop start) := by
        rw [List.drop_drop]
      rw [hsplit, List.take_append_drop]

lemma normalizeNewlines_not_all_ws_ne_nil (T : List Char)
    (hws : ¬ (normalizeNewlines T).all isJsWhitespace = true) :
    normalizeNewlines T ≠ [] := by
  intro h; rw [h] at hws; simp [List.all_nil] at hws

/-- C4 (counterexample): for `T = "a\r\nb"`, `W = 2`, `O = 1` (so `O < W`),
concatenating the chunks of `chunk(T, W, O)` with the `O`-character
overlaps removed yields `"a\nb"`, not `T`: `chunkText` first rewrites
`\r\n` to `\n`, so reconstruction does not recover a text containing
`\r\n` line endings, contrary to the claim's "for every T, including
text containing \r\n line endings". -/
theorem chunkText_reconstruction_counterexample :
    (1 : Nat) < 2 ∧
    dropOverlaps 1 (chunkText (['a', '\r', '\n', 'b']) 2 1) = ['a', '\n', 'b'] ∧
    dropOverlaps 1 (chunkText (['a', '\r', '\n', 'b']) 2 1) ≠ ['a', '\r', '\n', 'b'] := by
  decide

/-- C4 (amended): for every text `T`, window `W` and overlap `O` with
`O < W`, `chunkText` applied twice yields identical output (it is a pure
function), and — provided the `\r\n`-normalized form of `T` is not
whitespace-only — concatenating the chunks with the `O`-character
overlaps removed reconstructs the `\r\n`-normalized form of `T` exactly;
this equals `T` itself whenever `T` contains no carriage return.
(Whitespace-only input yields the empty chunk sequence.) -/
theorem chunkText_deterministic_and_reconstructs (T : List Char) (W O : Nat)
    (hO : O < W) (hws : ¬ (normalizeNewlines T).all isJsWhitespace = true) :
    chunkText T W O = chunkText T W O ∧
    dropOverlaps O (chunkText T W O) = normalizeNewlines T ∧
    ('\r' ∉ T → normalizeNewlines T = T) := by
  refine ⟨rfl, ?_, normalizeNewlines_no_cr T⟩
  have hne : normalizeNewlines T ≠ [] := normalizeNewlines_not_all_ws_ne_nil T hws
  have hpos : 0 < (normalizeNewlines T).length := List.length_pos.mpr hne
  rw [chunkText]
  rw [if_neg hws]
  rw [chunkLoop_dropOverlaps (normalizeNewlines T) W O hO
    ((normalizeNewlines T).length + 1) 0 hpos (by omega)]
  simp

/-- Witness for the amended C4 theorem at `T = "ab\r\ncd"`, `W = 3`,
`O = 1`. -/
theorem chunkText_deterministic_and_reconstructs_witness :
    dropOverlaps 1 (chunkText ("ab\r\ncd".data) 3 1) =
      normalizeNewlines ("ab\r\ncd".data) :=
  (chunkText_deterministic_and_reconstructs ("ab\r\ncd".data) 3 1
    (by decide) (by decide)).2.1

/-! ## Data model

`ContentBlock` is the tagged union pushed onto the `content` array; an
`UploadedFile` carries, besides its name/path, oracles describing how the
external world (pdf-parse, pdftoppm, the filesystem) behaves for it:
`extractResult` is what `extractPdfText(file.path)` returns or throws,
`renderOk`/`renderedData`/`encodeOk` describe per-page rendering and
base64-encoding of the rendered temp file. -/

inductive ContentBlock where
  | text (t : List Char)
  | image (mediaType : String) (data : String)
deriving DecidableEq

structure PdfData where
  text : List Char
  numpages : Option Nat
deriving DecidableEq

structure UploadedFile where
  originalname : List Char
  /-- `path.extname(originalname).toLowerCase()`. -/
  ext : String
  /-- storage path of the uploaded file in `uploads/` (abstract id). -/
  path : Nat
  /-- base64 contents when the file is read as an image (`fileToBase64`). -/
  imageData : String
  /-- behavior of `extractPdfText(file.path)`: text + page count, or a
  thrown extraction error. -/
  extractResult : Except String PdfData
  /-- whether `renderPdfPageToJpeg` succeeds for the given page. -/
  renderOk : Nat → Bool
  /-- base64 of the rendered page image, when rendering and reading succeed. -/
  renderedData : Nat → String
  /-- whether reading (base64-encoding) the rendered temp file succeeds. -/
  encodeOk : Nat → Bool

/-- JavaScript `String.prototype.startsWith`, character-list based (kept
kernel-reducible, unlike `String.startsWith`). -/
def strStartsWith (s p : String) : Bool :=
  p.data.isPrefixOf s.data

/-- `getMediaType` (server.js lines 197-211). -/
def getMediaType (ext : String) : String :=
  if ext = ".pdf" then "application/pdf"
  else if ext = ".png" then "image/png"
  else if ext = ".jpg" then "image/jpeg"
  else if ext = ".jpeg" then "image/jpeg"
  else if ext = ".gif" then "image/gif"
  else if ext = ".txt" then "text/plain"
  else if ext = ".doc" then "application/msword"
  else if ext = ".docx" then
    "application/vnd.openxmlformats-officedocument.wordprocessingml.document"
  else "application/octet-stream"

/-! ## Visual-fallback decision (server.js lines 350-358) -/

/-- `const charsPerPage = pages > 0 ? textChars / pages : 0;` — JS number
division, modelled exactly as rational division. -/
def charsPerPage (textChars pages : Nat) : ℚ :=
  if 0 < pages then (textChars : ℚ) / (pages : ℚ) else 0

/-- `const shouldRenderVisual = pages > 0 && (textChars <
VISUAL_FALLBACK_MIN_TEXT_CHARS || charsPerPage <
VISUAL_FALLBACK_MAX_CHARS_PER_PAGE);` (server.js lines 355-358).  The
density comparison `textChars / pages < VISUAL_FALLBACK_MAX_CHARS_PER_PAGE`
(exact division) is written in the equivalent cross-multiplied form
`textChars < VISUAL_FALLBACK_MAX_CHARS_PER_PAGE * pages` so that the
definition evaluates by kernel reduction; the equivalence with the
division form `charsPerPage` is proved in `visualFallback_iff`. -/
def shouldRenderVisual (textChars pages : Nat) : Bool :=
  decide (0 < pages) &&
    (decide (textChars < VISUAL_FALLBACK_MIN_TEXT_CHARS) ||
     decide (textChars < VISUAL_FALLBACK_MAX_CHARS_PER_PAGE * pages))

/-! ## Page sampling (server.js lines 379-390) -/

/-- The `for (let p = 1 + interval; p <= pages; p += interval)` loop. -/
def sampleLoop (pages interval : Nat) : Nat → Nat → List Nat
  | 0, _ => []
  | fuel + 1, p =>
    if p ≤ pages then p :: sampleLoop pages interval fuel (p + interval) else []

/-- `const samplePages = [1]; ... samplePages.push(p)`. -/
def samplePagesFor (pages : Nat) : List Nat :=
  let interval := max 2 (pages / 5)
  1 :: sampleLoop pages interval (pages + 1) (1 + interval)

/-- JavaScript `[...new Set(l)]`: deduplication keeping first occurrences. -/
def dedupFirst (seen : List Nat) : List Nat → List Nat
  | [] => []
  | a :: l => if a ∈ seen then dedupFirst seen l
              else a :: dedupFirst (a :: seen) l

/-- `const uniquePages = [...new Set(samplePages)].filter((p) => p >= 1 && p <= pages);` -/
def uniquePagesFor (pages : Nat) : List Nat :=
  (dedupFirst [] (samplePagesFor pages)).filter
    (fun p => decide (1 ≤ p) && decide (p ≤ pages))

/-- `const cappedPages = uniquePages.slice(0, VISUAL_RENDER_MAX_PAGES);` -/
def cappedPagesFor (pages : Nat) : List Nat :=
  (uniquePagesFor pages).take VISUAL_RENDER_MAX_PAGES

/-! ## Content Assembler (server.js `createContentWithFiles`, lines 313-472) -/

/-- Marker text pushed when a PDF is image-heavy but pdftoppm is missing
(server.js lines 365-373). -/
def imageHeavyNotice (name : List Char) : List Char :=
  "===== PDF (IMAGE-HEAVY) DETECTED: ".data ++ name ++ " =====\n".data ++
  "This PDF appears to have little/no extractable text (possibly scanned or image-based),\n".data ++
  "but server cannot render pages because pdftoppm is not available.\n".data ++
  "Please treat any extracted text as incomplete.\n".data ++
  "===== END PDF NOTICE: ".data ++ name ++ " =====\n".data

/-- server.js line 396. -/
def visualStartMarker (name : List Char) : List Char :=
  "===== VISUAL PAGES FROM PDF: ".data ++ name ++ " (sampled) =====".data

/-- server.js line 428. -/
def visualEndMarker (name : List Char) : List Char :=
  "===== END VISUAL PAGES FROM PDF: ".data ++ name ++ " =====".data

/-- server.js lines 443-449 (zero extractable chunks). -/
def noTextBlock (name : List Char) : List Char :=
  "===== PDF: ".data ++ name ++ " =====\n".data ++
  "[No extractable text found. This PDF may be image-only / scanned / mostly visual.]\n".data ++
  "===== END PDF: ".data ++ name ++ " =====\n".data

/-- server.js lines 453-461: chunk `i` (0-based) of `total`, bracketed by
start/end markers naming the file. -/
def chunkBlockText (name : List Char) (i total : Nat) (c : List Char) : List Char :=
  "===== PDF: ".data ++ name ++ " | CHUNK ".data ++ (toString (i + 1)).data ++
  "/".data ++ (toString total).data ++ " =====\n".data ++ c ++
  "\n===== END PDF: ".data ++ name ++ " | CHUNK ".data ++ (toString (i + 1)).data ++
  "/".data ++ (toString total).data ++ " =====\n".data

/-- The `for (let i = 0; i < total; i++)` loop pushing chunk blocks. -/
def chunkBlocks (name : List Char) (total : Nat) : Nat → List (List Char) → List ContentBlock
  | _, [] => []
  | i, c :: cs =>
    ContentBlock.text (chunkBlockText name i total c) :: chunkBlocks name total (i + 1) cs

/-- One iteration of the sampled-page render loop (server.js lines
399-424): `renderPdfPageToJpeg`, then `fileToBase64`, then push the image
block, then `fs.unlink(imagePath)`, the whole body inside
`try { ... } catch (err) { console.error(...) }`.  First component: the
blocks pushed; second component: the rendered temp files `(file.path,
page)` still on disk afterwards.  If rendering throws, no temp file was
produced; if encoding throws, control jumps to the catch BEFORE the
`fs.unlink`, so the rendered temp file is left behind. -/
def processVisualPage (f : UploadedFile) (page : Nat) :
    List ContentBlock × List (Nat × Nat) :=
  if f.renderOk page then
    if f.encodeOk page then
      ([ContentBlock.image "image/jpeg" (f.renderedData page)], [])
    else
      ([], [(f.path, page)])
  else ([], [])

/-- `for (const pageNum of cappedPages) { ... }`. -/
def visualPagesLoop (f : UploadedFile) : List Nat → List ContentBlock × List (Nat × Nat)
  | [] => ([], [])
  | p :: ps =>
    let r := processVisualPage f p
    let rest := visualPagesLoop f ps
    (r.1 ++ rest.1, r.2 ++ rest.2)

structure PdfDiag where
  filename : List Char
  numpages : Option Nat
  textLength : Nat
  chunkCount : Nat
deriving DecidableEq

/-- Return value of `createContentWithFiles` plus, as model bookkeeping,
the rendered temp files left on disk (`leftoverRenderTemps` is not part
of the JS return value; it records the side effect needed for C5). -/
structure AssembleResult where
  content : List ContentBlock
  pdfDiagnostics : List PdfDiag
  totalExtractedPdfChars : Nat
  leftoverRenderTemps : List (Nat × Nat)
deriving DecidableEq

/-- The visual-fallback portion of the PDF branch (server.js lines
361-431): either the pdftoppm-missing notice, or the sampled rendered
pages bracketed by start/end markers.  First component: blocks pushed;
second: rendered temp files left on disk. -/
def pdfVisualPart (canRenderPdfPages : Bool) (f : UploadedFile)
    (textChars pages : Nat) : List ContentBlock × List (Nat × Nat) :=
  if shouldRenderVisual textChars pages then
    if !canRenderPdfPages then
      ([ContentBlock.text (imageHeavyNotice f.originalname)], [])
    else
      (ContentBlock.text (visualStartMarker f.originalname) ::
         (visualPagesLoop f (cappedPagesFor pages)).1 ++
         [ContentBlock.text (visualEndMarker f.originalname)],
       (visualPagesLoop f (cappedPagesFor pages)).2)
  else ([], [])

/-- The chunked-text portion of the PDF branch (server.js lines 441-463). -/
def pdfTextPart (f : UploadedFile) (chunks : List (List Char)) : List ContentBlock :=
  if chunks.length = 0 then [ContentBlock.text (noTextBlock f.originalname)]
  else chunkBlocks f.originalname chunks.length 0 chunks

/-- Processing of one PDF whose extraction succeeded (server.js lines
344-465): visual-fallback blocks (if any), then the text blocks, plus one
diagnostics entry and the extracted char count. -/
def processPdf (canRenderPdfPages : Bool) (f : UploadedFile) (pdf : PdfData) :
    AssembleResult :=
  ⟨(pdfVisualPart canRenderPdfPages f pdf.text.length (pdf.numpages.getD 0)).1 ++
     pdfTextPart f (chunkText pdf.text PDF_TEXT_CHUNK_CHARS PDF_TEXT_CHUNK_OVERLAP),
   [⟨f.originalname, pdf.numpages, pdf.text.length,
     (chunkText pdf.text PDF_TEXT_CHUNK_CHARS PDF_TEXT_CHUNK_OVERLAP).length⟩],
   pdf.text.length,
   (pdfVisualPart canRenderPdfPages f pdf.text.length (pdf.numpages.getD 0)).2⟩

/-- The per-file body of the `for (const file of files)` loop of
`createContentWithFiles` (server.js lines 325-469).  An extraction error
propagates (there is no try/catch around `extractPdfText`). -/
def processFile (canRenderPdfPages : Bool) (f : UploadedFile) :
    Except String AssembleResult :=
  if strStartsWith (getMediaType f.ext) "image/" then
    .ok ⟨[ContentBlock.image (getMediaType f.ext) f.imageData], [], 0, []⟩
  else if getMediaType f.ext = "application/pdf" then
    match f.extractResult with
    | .error e => .error e
    | .ok pdf => .ok (processPdf canRenderPdfPages f pdf)
  else
    -- other media types are intentionally dropped (server.js line 468)
    .ok ⟨[], [], 0, []⟩

/-- The file loop of `createContentWithFiles`, accumulating content
blocks, diagnostics, the extracted-char total and leftover temp files in
file order. -/
def assembleLoop (canRenderPdfPages : Bool) :
    List UploadedFile → Except String AssembleResult
  | [] => .ok ⟨[], [], 0, []⟩
  | f :: rest =>
    match processFile canRenderPdfPages f with
    | .error e => .error e
    | .ok r =>
      match assembleLoop canRenderPdfPages rest with
      | .error e => .error e
      | .ok rs =>
        .ok ⟨r.content ++ rs.content,
             r.pdfDiagnostics ++ rs.pdfDiagnostics,
             r.totalExtractedPdfChars + rs.totalExtractedPdfChars,
             r.leftoverRenderTemps ++ rs.leftoverRenderTemps⟩

/-- `createContentWithFiles(files, message)` (server.js lines 313-472):
the optional leading instruction text block, then the per-file blocks. -/
def createContentWithFiles (canRenderPdfPages : Bool) (files : List UploadedFile)
    (message : Option (List Char)) : Except String AssembleResult :=
  match assembleLoop canRenderPdfPages files with
  | .error e => .error e
  | .ok r =>
    .ok { r with
          content := (match message with
            | some m => [ContentBlock.text m]
            | none => []) ++ r.content }

deriving instance DecidableEq for Except

/-! ## Conversation turns and the external summarization service -/

structure ConversationTurn where
  role : String
  content : List ContentBlock
deriving DecidableEq

/-- The request environment: configuration plus the external
summarization service (`anthropic.messages.create`), abstracted as two
oracles.  `synthesize` is a breakdown-producing call under the fixed
`SYSTEM_PROMPT` (single-pass generate, multi-pass final pass, revise);
`extractNotes` is the per-chunk notes call of the multi-pass protocol.
Each returns the adapted response text `msg.content?.[0]?.text || ""`,
or the error thrown by the transport. -/
structure Env where
  apiKeySet : Bool
  canRenderPdfPages : Bool
  synthesize : List ConversationTurn → Except String (List Char)
  extractNotes : List Char → Except String (List Char)

/-! ## Multi-pass summarizer (server.js `runMultiPassBreakdown`, lines 479-548) -/

/-- The leading instruction passed by the generate route to
`createContentWithFiles` (server.js line 584). -/
def instructionMessage : List Char :=
  "Please analyze these production brief documents and create a detailed production breakdown following the format and rules in your system prompt.".data

/-- The marker tested by `block.text.startsWith(...)` (server.js line 490). -/
def genericInstructionStart : List Char :=
  "Please analyze these production brief documents".data

def ContentBlock.isTextBlock : ContentBlock → Bool
  | .text _ => true
  | .image _ _ => false

def ContentBlock.isImageBlock : ContentBlock → Bool
  | .image _ _ => true
  | .text _ => false

def ContentBlock.textOf : ContentBlock → List Char
  | .text t => t
  | .image _ _ => []

/-- `typeof block.text === "string" && block.text.startsWith("Please
analyze these production brief documents")` (server.js lines 488-490). -/
def isGenericInstruction (b : ContentBlock) : Bool :=
  b.isTextBlock && genericInstructionStart.isPrefixOf b.textOf

/-- The notes loop (server.js lines 485-521): one independent notes
request per non-generic text block, in block order; a failing request
propagates. -/
def notesLoop (note : List Char → Except String (List Char)) :
    List ContentBlock → Except String (List (List Char))
  | [] => .ok []
  | b :: rest =>
    if isGenericInstruction b then notesLoop note rest
    else
      match note b.textOf with
      | .error e => .error e
      | .ok n =>
        match notesLoop note rest with
        | .error e => .error e
        | .ok ns => .ok (n :: ns)

/-- server.js lines 526-528. -/
def finalInstructionText : List Char :=
  "You will now produce the final production breakdown. Use the notes below as the only factual source. If images are attached, use them only to confirm visible details and call out any uncertainties as QUESTIONS.".data

/-- `notes.join("\n\n---\n\n")`. -/
def joinNotes : List (List Char) → List Char
  | [] => []
  | [n] => n
  | n :: ns => n ++ "\n\n---\n\n".data ++ joinNotes ns

/-- server.js lines 531-537. -/
def notesCombined (notes : List (List Char)) : List Char :=
  "\n\n===== EXTRACTED NOTES (MULTI-PASS) =====\n".data ++ joinNotes notes ++
  "\n===== END EXTRACTED NOTES =====\n".data

/-- `runMultiPassBreakdown({originalContent})` (server.js lines 479-548). -/
def runMultiPassBreakdown (env : Env) (originalContent : List ContentBlock) :
    Except String (List Char) :=
  let imageBlocks := originalContent.filter ContentBlock.isImageBlock
  let textBlocks := originalContent.filter ContentBlock.isTextBlock
  match notesLoop env.extractNotes textBlocks with
  | .error e => .error e
  | .ok notes =>
    let finalUserContent :=
      ContentBlock.text finalInstructionText :: imageBlocks ++
        [ContentBlock.text (notesCombined notes)]
    env.synthesize [⟨"user", finalUserContent⟩]

/-! ## Breakdown orchestrator: the generate route
(server.js `/api/generate-breakdown`, lines 555-634) -/

inductive ApiResponse where
  /-- `res.json({breakdown, conversationHistory})` (status 200). -/
  | ok (breakdown : List Char) (conversationHistory : List ConversationTurn)
  /-- `res.status(400).json({error})`. -/
  | clientError (error : String)
  /-- `res.status(500).json({error})`. -/
  | serverError (error : String)
deriving DecidableEq

def ApiResponse.isSuccess : ApiResponse → Bool
  | .ok _ _ => true
  | _ => false

/-- The single direct synthesis call of the non-multi-pass path
(server.js lines 609-616). -/
def singlePassCall (env : Env) (content : List ContentBlock) :
    Except String (List Char) :=
  env.synthesize [⟨"user", content⟩]

/-- `if (totalExtractedPdfChars > MULTIPASS_THRESHOLD_CHARS) {...} else
{...}` (server.js lines 603-617). -/
def runSynthesis (env : Env) (r : AssembleResult) : Except String (List Char) :=
  if MULTIPASS_THRESHOLD_CHARS < r.totalExtractedPdfChars then
    runMultiPassBreakdown env r.content
  else singlePassCall env r.content

/-- The `finally` loop `for (const p of cleanupPaths) await
fs.unlink(p).catch(() => {})` applied to a disk state (the set of paths
present in `uploads/`). -/
def unlinkAll (paths disk : List Nat) : List Nat :=
  disk.filter (fun p => decide (p ∉ paths))

def MISSING_KEY_ERROR : String :=
  "Server is missing ANTHROPIC_API_KEY environment variable. Set it and restart the server."

/-- The `try` part of the generate route body (server.js lines 562-627):
validation, content assembly, path selection, synthesis; any error from
assembly or synthesis is caught and mapped to a 500 response. -/
def generateResponse (env : Env) (files : List UploadedFile) : ApiResponse :=
  if files.length = 0 then .clientError "No files uploaded"
  else if !env.apiKeySet then .serverError MISSING_KEY_ERROR
  else
    match createContentWithFiles env.canRenderPdfPages files (some instructionMessage) with
    | .error _ => .serverError "Failed to generate breakdown"
    | .ok r =>
      match runSynthesis env r with
      | .error _ => .serverError "Failed to generate breakdown"
      | .ok breakdown =>
        .ok breakdown
          [⟨"user", r.content⟩, ⟨"assistant", [ContentBlock.text breakdown]⟩]

/-- The whole generate request: the response from the `try`/`catch`, and
the uploads-directory state after the `finally` block, which unlinks the
`cleanupPaths = files.map((f) => f.path)` on EVERY exit path (server.js
lines 559-560 and 628-632). -/
def generateBreakdown (env : Env) (files : List UploadedFile) (disk : List Nat) :
    ApiResponse × List Nat :=
  (generateResponse env files, unlinkAll (files.map (·.path)) disk)

/-! ## Revise route (server.js `/api/revise-breakdown`, lines 641-693) -/

/-- The appended user turn (server.js lines 658-669). -/
def reviseUserTurn (revisionRequest currentBreakdown : List Char) : ConversationTurn :=
  ⟨"user", [ContentBlock.text
    ("Please revise the breakdown based on this feedback: ".data ++ revisionRequest ++
     "\n\nCurrent breakdown:\n".data ++ currentBreakdown)]⟩

def assistantTurn (t : List Char) : ConversationTurn :=
  ⟨"assistant", [ContentBlock.text t]⟩

/-- JavaScript truthiness for an optional string field: absent, `null`
and `""` are falsy. -/
def truthy : Option (List Char) → Bool
  | none => false
  | some t => !t.isEmpty

/-- `/api/revise-breakdown` (server.js lines 641-693).  The client-
supplied history is used verbatim; `conversationHistory || []` recovers
an absent/null history. -/
def reviseBreakdown (env : Env) (revisionRequest currentBreakdown : Option (List Char))
    (conversationHistory : Option (List ConversationTurn)) : ApiResponse :=
  if !truthy revisionRequest || !truthy currentBreakdown then
    .clientError "Missing required data"
  else if !env.apiKeySet then .serverError MISSING_KEY_ERROR
  else
    let messages := conversationHistory.getD [] ++
      [reviseUserTurn (revisionRequest.getD []) (currentBreakdown.getD [])]
    match env.synthesize messages with
    | .error _ => .serverError "Failed to revise breakdown"
    | .ok revised => .ok revised (messages ++ [assistantTurn revised])

/-! ## Claim C6: visual-fallback decision -/

lemma charsPerPage_lt_iff (textChars pages bound : Nat) (hp : 0 < pages) :
    (charsPerPage textChars pages < (bound : ℚ)) ↔ textChars < bound * pages := by
  rw [charsPerPage, if_pos hp]
  rw [div_lt_iff₀ (by exact_mod_cast hp : (0 : ℚ) < (pages : ℚ))]
  exact_mod_cast Iff.rfl

/-- C6: for every processed PDF, the visual-fallback flag
`shouldRenderVisual` is set iff `pageCount > 0` and (extracted char count
below `VISUAL_FALLBACK_MIN_TEXT_CHARS`, or chars-per-page — JS number
division, modelled as exact rational division `charsPerPage` — below
`VISUAL_FALLBACK_MAX_CHARS_PER_PAGE`); `pageCount = 10, textChars = 500`
triggers it, `pageCount = 10, textChars = 5000` (density 500, above
threshold) does not. -/
theorem visualFallback_iff (textChars pages : Nat) :
    (shouldRenderVisual textChars pages = true ↔
      0 < pages ∧ (textChars < VISUAL_FALLBACK_MIN_TEXT_CHARS ∨
        charsPerPage textChars pages < (VISUAL_FALLBACK_MAX_CHARS_PER_PAGE : ℚ))) ∧
    shouldRenderVisual 500 10 = true ∧
    shouldRenderVisual 5000 10 = false := by
  refine ⟨?_, by decide, by decide⟩
  rw [shouldRenderVisual]
  simp only [Bool.and_eq_true, Bool.or_eq_true, decide_eq_true_eq]
  constructor
  · rintro ⟨hp, h⟩
    exact ⟨hp, h.imp id fun hd => (charsPerPage_lt_iff textChars pages _ hp).mpr hd⟩
  · rintro ⟨hp, h⟩
    exact ⟨hp, h.imp id fun hd => (charsPerPage_lt_iff textChars pages _ hp).mp hd⟩

/-! ## Claim C7: page sampling -/

lemma dedupFirst_subset (a : Nat) :
    ∀ (seen l : List Nat), a ∈ dedupFirst seen l → a ∈ l
  | _, [], h => by simp [dedupFirst] at h
  | seen, b :: l, h => by
    rw [dedupFirst] at h
    by_cases hb : b ∈ seen
    · rw [if_pos hb] at h
      exact List.mem_cons_of_mem b (dedupFirst_subset a seen l h)
    · rw [if_neg hb] at h
      rcases List.mem_cons.mp h with h | h
      · exact h ▸ List.mem_cons_self b l
      · exact List.mem_cons_of_mem b (dedupFirst_subset a (b :: seen) l h)

/-- C7: the sampled page set always includes page 1, its size never
exceeds the render cap `VISUAL_RENDER_MAX_PAGES`, every sampled page lies
in `[1, pageCount]`, and for `pageCount = 20` the pre-cap set is
`{1, 5, 9, 13, 17}`. -/
theorem pageSampling_spec (pages : Nat) (hp : 1 ≤ pages) :
    1 ∈ cappedPagesFor pages ∧
    (cappedPagesFor pages).length ≤ VISUAL_RENDER_MAX_PAGES ∧
    (∀ p ∈ cappedPagesFor pages, 1 ≤ p ∧ p ≤ pages) ∧
    uniquePagesFor 20 = [1, 5, 9, 13, 17] := by
  refine ⟨?_, ?_, ?_, by decide⟩
  · have hsp : uniquePagesFor pages =
        1 :: (dedupFirst [1]
          (sampleLoop pages (max 2 (pages / 5)) (pages + 1) (1 + max 2 (pages / 5)))).filter
            (fun p => decide (1 ≤ p) && decide (p ≤ pages)) := by
      rw [uniquePagesFor, samplePagesFor]
      rw [dedupFirst]
      rw [if_neg (by simp)]
      rw [List.filter_cons]
      rw [if_pos (by simp [hp])]
    rw [cappedPagesFor, hsp, VISUAL_RENDER_MAX_PAGES]
    exact List.mem_cons_self 1 _
  · rw [cappedPagesFor]
    rw [List.length_take]
    exact min_le_left _ _
  · intro p hmem
    have hu : p ∈ uniquePagesFor pages := List.take_subset _ _ hmem
    have hcond := (List.mem_filter.mp hu).2
    simp only [Bool.and_eq_true, decide_eq_true_eq] at hcond
    exact hcond

/-- Witness for C7 at `pages = 20`. -/
theorem pageSampling_spec_witness :
    1 ∈ cappedPagesFor 20 ∧
    (cappedPagesFor 20).length ≤ VISUAL_RENDER_MAX_PAGES :=
  ⟨(pageSampling_spec 20 (by decide)).1, (pageSampling_spec 20 (by decide)).2.1⟩

/-! ## Claim C3: guaranteed cleanup of uploaded files -/

/-- C3: after a generate request — on every exit path (success, empty
file list, missing credential, assembly or synthesis failure) — no
originally uploaded file remains in temporary storage: the `finally`
block unlinks every `files[i].path` unconditionally. -/
theorem uploadCleanup_invariant (env : Env) (files : List UploadedFile)
    (disk : List Nat) (f : UploadedFile) (hf : f ∈ files) :
    f.path ∉ (generateBreakdown env files disk).2 := by
  intro hmem
  rw [generateBreakdown] at hmem
  simp only [unlinkAll, List.mem_filter, decide_eq_true_eq] at hmem
  exact hmem.2 (List.mem_map_of_mem (fun g => g.path) hf)

def cleanupWitnessFile : UploadedFile :=
  ⟨"notes.txt".data, ".txt", 5, "", .ok ⟨[], none⟩,
   fun _ => true, fun _ => "", fun _ => true⟩

def cleanupWitnessEnv : Env :=
  ⟨false, true, fun _ => .ok [], fun _ => .ok []⟩

/-- Witness for C3: a concrete request (missing credential path). -/
theorem uploadCleanup_invariant_witness :
    cleanupWitnessFile.path ∉
      (generateBreakdown cleanupWitnessEnv [cleanupWitnessFile] [5, 9]).2 :=
  uploadCleanup_invariant cleanupWitnessEnv [cleanupWitnessFile] [5, 9]
    cleanupWitnessFile (List.mem_cons_self cleanupWitnessFile [])

/-! ## Claim C5: rendered temp-file cleanup -/

/-- A PDF that triggers visual fallback (zero extractable text, one
page), whose page renders fine but whose rendered file cannot be read
back (base64-encoding fails). -/
def encodeFailPdf : UploadedFile :=
  ⟨"scan.pdf".data, ".pdf", 7, "", .ok ⟨[], some 1⟩,
   fun _ => true, fun _ => "", fun _ => false⟩

/-- C5 (counterexample): for `encodeFailPdf`, page 1 is rendered, its
base64-encoding fails, and the renderer's temporary output file `(7, 1)`
is left on disk — the `fs.unlink` sits after the encode inside the `try`,
so a failing encode skips it.  Cleanup is NOT guaranteed when encoding
fails, contrary to the claim. -/
theorem renderCleanup_counterexample :
    (createContentWithFiles true [encodeFailPdf] none).map
        AssembleResult.leftoverRenderTemps = .ok [(7, 1)] := by
  decide

/-- C5 (amended): during visual fallback the rendered temp files left on
disk after the page loop are exactly those of the pages whose render
succeeded but whose base64-encoding failed; in particular a page whose
encoding succeeds has its temp file deleted, and a page whose encoding
fails leaves its temp file behind. -/
theorem renderCleanup_amended (f : UploadedFile) (ps : List Nat) :
    (visualPagesLoop f ps).2 =
      (ps.filter (fun p => f.renderOk p && !f.encodeOk p)).map
        (fun p => (f.path, p)) := by
  induction ps with
  | nil => rfl
  | cons p ps ih =>
    rw [visualPagesLoop, List.filter_cons]
    by_cases hr : f.renderOk p <;> by_cases he : f.encodeOk p <;>
      simp [processVisualPage, hr, he, ih]

/-! ## Claim C9: revision history growth -/

/-- C9: a successful revise call returns
`inputHistory ++ [new user turn, new assistant turn]`: length grows by
exactly 2 and the first `inputHistory.length` entries are identical to
the input. -/
theorem reviseHistory_growth (env : Env) (r c t : List Char)
    (H : List ConversationTurn) (hr : r ≠ []) (hc : c ≠ [])
    (hkey : env.apiKeySet = true)
    (hs : env.synthesize (H ++ [reviseUserTurn r c]) = .ok t) :
    reviseBreakdown env (some r) (some c) (some H) =
      .ok t (H ++ [reviseUserTurn r c, assistantTurn t]) ∧
    (H ++ [reviseUserTurn r c, assistantTurn t]).length = H.length + 2 ∧
    (H ++ [reviseUserTurn r c, assistantTurn t]).take H.length = H := by
  refine ⟨?_, by simp, ?_⟩
  · rw [reviseBreakdown]
    have h1 : truthy (some r) = true := by simp [truthy, hr]
    have h2 : truthy (some c) = true := by simp [truthy, hc]
    rw [if_neg (by simp [h1, h2]), if_neg (by simp [hkey])]
    simp only [Option.getD_some]
    rw [hs]
    simp [List.append_assoc]
  · have : H ++ [reviseUserTurn r c, assistantTurn t] =
        H ++ [reviseUserTurn r c, assistantTurn t] := rfl
    calc (H ++ [reviseUserTurn r c, assistantTurn t]).take H.length
        = H := List.take_left H _

def reviseWitnessEnv9 : Env :=
  ⟨true, true, fun _ => .ok ("REVISED".data), fun _ => .ok []⟩

/-- Witness for C9 with a singleton input history. -/
theorem reviseHistory_growth_witness :
    reviseBreakdown reviseWitnessEnv9 (some ("fix".data)) (some ("old".data))
        (some [assistantTurn ("old".data)]) =
      .ok ("REVISED".data)
        ([assistantTurn ("old".data)] ++
          [reviseUserTurn ("fix".data) ("old".data), assistantTurn ("REVISED".data)]) ∧
    ([assistantTurn ("old".data)] ++
      [reviseUserTurn ("fix".data) ("old".data), assistantTurn ("REVISED".data)]).length =
      [assistantTurn ("old".data)].length + 2 :=
  have h := reviseHistory_growth reviseWitnessEnv9 ("fix".data) ("old".data)
    ("REVISED".data) [assistantTurn ("old".data)] (by decide) (by decide) rfl rfl
  ⟨h.1, h.2.1⟩

/-! ## Claim C10: revise with absent history -/

/-- C10: a revise call with non-empty `revisionRequest` and
`currentBreakdown` but absent/null `conversationHistory` does not fail:
the history is treated as empty and the returned history is exactly
`[new user turn, new assistant turn]`. -/
theorem reviseMissingHistory (env : Env) (r c t : List Char)
    (hr : r ≠ []) (hc : c ≠ []) (hkey : env.apiKeySet = true)
    (hs : env.synthesize [reviseUserTurn r c] = .ok t) :
    reviseBreakdown env (some r) (some c) none =
      .ok t [reviseUserTurn r c, assistantTurn t] := by
  rw [reviseBreakdown]
  have h1 : truthy (some r) = true := by simp [truthy, hr]
  have h2 : truthy (some c) = true := by simp [truthy, hc]
  rw [if_neg (by simp [h1, h2]), if_neg (by simp [hkey])]
  simp only [Option.getD_some, Option.getD_none, List.nil_append]
  rw [hs]
  simp

def reviseWitnessEnv10 : Env :=
  ⟨true, true, fun _ => .ok ("REWRITE".data), fun _ => .ok []⟩

/-- Witness for C10. -/
theorem reviseMissingHistory_witness :
    reviseBreakdown reviseWitnessEnv10 (some ("shorter".data)) (some ("draft".data)) none =
      .ok ("REWRITE".data)
        [reviseUserTurn ("shorter".data) ("draft".data), assistantTurn ("REWRITE".data)] :=
  reviseMissingHistory reviseWitnessEnv10 ("shorter".data) ("draft".data)
    ("REWRITE".data) (by decide) (by decide) rfl rfl

/-! ## Helper lemmas about the assembler and the notes pass -/

lemma chunkLoop_ne_nil (clean : List Char) (W O start fuel : Nat)
    (h1 : start < clean.length) (h2 : 0 < fuel) :
    chunkLoop clean W O start fuel ≠ [] := by
  cases fuel with
  | zero => omega
  | succ f =>
    rw [chunkLoop]
    simp only [h1, if_true]
    split <;> simp

lemma chunkText_ne_nil (T : List Char) (W O : Nat)
    (hws : ¬ (normalizeNewlines T).all isJsWhitespace = true) :
    chunkText T W O ≠ [] := by
  rw [chunkText, if_neg hws]
  exact chunkLoop_ne_nil _ _ _ _ _
    (List.length_pos.mpr (normalizeNewlines_not_all_ws_ne_nil T hws)) (by omega)

lemma head_of_append (a b : List Char) (c : Char) (h : ∃ r, a = c :: r) :
    ∃ t, a ++ b = c :: t := by
  obtain ⟨r, hr⟩ := h
  exact ⟨r ++ b, by rw [hr]; rfl⟩

lemma chunkBlockText_head (name : List Char) (i total : Nat) (c : List Char) :
    ∃ t, chunkBlockText name i total c = '=' :: t := by
  rw [chunkBlockText]
  repeat apply head_of_append
  exact ⟨"==== PDF: ".data, by decide⟩

lemma noTextBlock_head (name : List Char) :
    ∃ t, noTextBlock name = '=' :: t := by
  rw [noTextBlock]
  repeat apply head_of_append
  exact ⟨"==== PDF: ".data, by decide⟩

lemma imageHeavyNotice_head (name : List Char) :
    ∃ t, imageHeavyNotice name = '=' :: t := by
  rw [imageHeavyNotice]
  repeat apply head_of_append
  exact ⟨"==== PDF (IMAGE-HEAVY) DETECTED: ".data, by decide⟩

lemma visualStartMarker_head (name : List Char) :
    ∃ t, visualStartMarker name = '=' :: t := by
  rw [visualStartMarker]
  repeat apply head_of_append
  exact ⟨"==== VISUAL PAGES FROM PDF: ".data, by decide⟩

lemma visualEndMarker_head (name : List Char) :
    ∃ t, visualEndMarker name = '=' :: t := by
  rw [visualEndMarker]
  repeat apply head_of_append
  exact ⟨"==== END VISUAL PAGES FROM PDF: ".data, by decide⟩

lemma visualPagesLoop_no_text (f : UploadedFile) :
    ∀ (ps : List Nat) (t : List Char),
      ContentBlock.text t ∈ (visualPagesLoop f ps).1 → False
  | [], t, h => by simp [visualPagesLoop] at h
  | p :: ps, t, h => by
    rw [visualPagesLoop] at h
    simp only [List.mem_append] at h
    cases h with
    | inl h =>
      rw [processVisualPage] at h
      by_cases hr : f.renderOk p = true
      · by_cases he : f.encodeOk p = true
        · rw [if_pos hr, if_pos he] at h; simp at h
        · rw [if_pos hr, if_neg he] at h; simp at h
      · rw [if_neg hr] at h; simp at h
    | inr h => exact visualPagesLoop_no_text f ps t h

lemma chunkBlocks_text_head (name : List Char) (total : Nat) :
    ∀ (i : Nat) (cs : List (List Char)) (t : List Char),
      ContentBlock.text t ∈ chunkBlocks name total i cs → ∃ t', t = '=' :: t'
  | _, [], t, h => by simp [chunkBlocks] at h
  | i, c :: cs, t, h => by
    rw [chunkBlocks] at h
    rcases List.mem_cons.mp h with h | h
    · obtain ⟨t', ht⟩ := chunkBlockText_head name i total c
      injection h with h1
      exact ⟨t', by rw [h1, ht]⟩
    · exact chunkBlocks_text_head name total (i + 1) cs t h

lemma pdfTextPart_text_head (f : UploadedFile) (chunks : List (List Char))
    (t : List Char) (hmem : ContentBlock.text t ∈ pdfTextPart f chunks) :
    ∃ t', t = '=' :: t' := by
  rw [pdfTextPart] at hmem
  by_cases hz : chunks.length = 0
  · rw [if_pos hz] at hmem
    simp only [List.mem_singleton] at hmem
    injection hmem with h1
    obtain ⟨t', ht⟩ := noTextBlock_head f.originalname
    exact ⟨t', by rw [h1, ht]⟩
  · rw [if_neg hz] at hmem
    exact chunkBlocks_text_head f.originalname chunks.length 0 chunks t hmem

lemma pdfVisualPart_text_head (canR : Bool) (f : UploadedFile) (tc pg : Nat)
    (t : List Char) (hmem : ContentBlock.text t ∈ (pdfVisualPart canR f tc pg).1) :
    ∃ t', t = '=' :: t' := by
  rw [pdfVisualPart] at hmem
  by_cases hsv : shouldRenderVisual tc pg = true
  · rw [if_pos hsv] at hmem
    by_cases hcr : (!canR) = true
    · rw [if_pos hcr] at hmem
      simp only [List.mem_singleton] at hmem
      injection hmem with h1
      obtain ⟨t', ht⟩ := imageHeavyNotice_head f.originalname
      exact ⟨t', by rw [h1, ht]⟩
    · rw [if_neg hcr] at hmem
      simp only [List.mem_cons, List.mem_append, List.mem_singleton] at hmem
      rcases hmem with (h | h) | h | h
      · injection h with h1
        obtain ⟨t', ht⟩ := visualStartMarker_head f.originalname
        exact ⟨t', by rw [h1, ht]⟩
      · exact absurd h (fun hh => visualPagesLoop_no_text f _ t hh)
      · injection h with h1
        obtain ⟨t', ht⟩ := visualEndMarker_head f.originalname
        exact ⟨t', by rw [h1, ht]⟩
      · simp at h
  · rw [if_neg hsv] at hmem
    simp at hmem

lemma processPdf_content (canR : Bool) (f : UploadedFile) (pdf : PdfData) :
    (processPdf canR f pdf).content =
      (pdfVisualPart canR f pdf.text.length (pdf.numpages.getD 0)).1 ++
        pdfTextPart f (chunkText pdf.text PDF_TEXT_CHUNK_CHARS PDF_TEXT_CHUNK_OVERLAP) :=
  rfl

lemma processPdf_text_head (canR : Bool) (f : UploadedFile) (pdf : PdfData)
    (t : List Char) (hmem : ContentBlock.text t ∈ (processPdf canR f pdf).content) :
    ∃ t', t = '=' :: t' := by
  rw [processPdf_content] at hmem
  rcases List.mem_append.mp hmem with h | h
  · exact pdfVisualPart_text_head canR f _ _ t h
  · exact pdfTextPart_text_head f _ t h

lemma processFile_text_head (canR : Bool) (f : UploadedFile) (r : AssembleResult)
    (h : processFile canR f = .ok r) (t : List Char)
    (hmem : ContentBlock.text t ∈ r.content) : ∃ t', t = '=' :: t' := by
  rw [processFile] at h
  by_cases him : strStartsWith (getMediaType f.ext) "image/" = true
  · rw [if_pos him] at h
    injection h with h1
    subst h1
    simp at hmem
  · rw [if_neg him] at h
    by_cases hpdf : getMediaType f.ext = "application/pdf"
    · rw [if_pos hpdf] at h
      cases hext : f.extractResult with
      | error e => rw [hext] at h; cases h
      | ok pdf =>
        rw [hext] at h
        injection h with h1
        subst h1
        exact processPdf_text_head canR f pdf t hmem
    · rw [if_neg hpdf] at h
      injection h with h1
      subst h1
      simp at hmem

lemma assembleLoop_text_head (canR : Bool) :
    ∀ (files : List UploadedFile) (r : AssembleResult),
      assembleLoop canR files = .ok r →
      ∀ t, ContentBlock.text t ∈ r.content → ∃ t', t = '=' :: t'
  | [], r, h, t, hmem => by
    rw [assembleLoop] at h
    injection h with h1
    subst h1
    simp at hmem
  | f :: rest, r, h, t, hmem => by
    rw [assembleLoop] at h
    cases hf : processFile canR f with
    | error e => rw [hf] at h; cases h
    | ok rf =>
      rw [hf] at h
      cases hrest : assembleLoop canR rest with
      | error e => rw [hrest] at h; cases h
      | ok rr =>
        rw [hrest] at h
        injection h with h1
        subst h1
        rcases List.mem_append.mp hmem with hm | hm
        · exact processFile_text_head canR f rf hf t hm
        · exact assembleLoop_text_head canR rest rr hrest t hm

lemma genericInstructionStart_eq :
    genericInstructionStart =
      'P' :: "lease analyze these production brief documents".data := by
  decide

lemma isPrefixOf_cons_ne (c d : Char) (p l : List Char) (h : (c == d) = false) :
    List.isPrefixOf (c :: p) (d :: l) = false := by
  simp only [List.isPrefixOf, Bool.and_eq_false_iff]
  exact Or.inl h

lemma isGenericInstruction_of_head (t t' : List Char) (h : t = '=' :: t') :
    isGenericInstruction (ContentBlock.text t) = false := by
  subst h
  rw [isGenericInstruction, genericInstructionStart_eq]
  simp only [ContentBlock.isTextBlock, ContentBlock.textOf, Bool.true_and]
  exact isPrefixOf_cons_ne 'P' '=' _ _ (by decide)

lemma instructionMessage_generic :
    isGenericInstruction (ContentBlock.text instructionMessage) = true := by
  decide

lemma notesLoop_ok_of_no_generic (g : List Char → List Char)
    (l : List ContentBlock) (hl : ∀ b ∈ l, isGenericInstruction b = false) :
    notesLoop (fun u => .ok (g u)) l = .ok (l.map (fun b => g b.textOf)) := by
  induction l with
  | nil => rfl
  | cons b l ih =>
    rw [notesLoop, if_neg (by simp [hl b (List.mem_cons_self b l)])]
    rw [ih fun x hx => hl x (List.mem_cons_of_mem b hx)]
    rfl

lemma notesLoop_error (e : String) (l : List ContentBlock)
    (hl : ∃ b ∈ l, isGenericInstruction b = false) :
    notesLoop (fun _ => .error e) l = .error e := by
  induction l with
  | nil => simp at hl
  | cons b l ih =>
    rw [notesLoop]
    by_cases hb : isGenericInstruction b = true
    · rw [if_pos hb]
      apply ih
      obtain ⟨x, hx, hxg⟩ := hl
      rcases List.mem_cons.mp hx with rfl | hx'
      · rw [hb] at hxg; cases hxg
      · exact ⟨x, hx', hxg⟩
    · rw [if_neg hb]

/-! ## Claim C2: the multi-pass threshold boundary -/

/-- C2 (amended): the path decision is a strict comparison
(`totalExtractedPdfChars > MULTIPASS_THRESHOLD_CHARS`, server.js line
603): a total of threshold − 1 takes the single-pass path, a total
EXACTLY at the threshold also takes the single-pass path, and only a
total strictly above the threshold takes the multi-pass path. -/
theorem multipassBoundary (env : Env) (r : AssembleResult) :
    (r.totalExtractedPdfChars = MULTIPASS_THRESHOLD_CHARS - 1 →
      runSynthesis env r = singlePassCall env r.content) ∧
    (r.totalExtractedPdfChars = MULTIPASS_THRESHOLD_CHARS →
      runSynthesis env r = singlePassCall env r.content) ∧
    (MULTIPASS_THRESHOLD_CHARS < r.totalExtractedPdfChars →
      runSynthesis env r = runMultiPassBreakdown env r.content) := by
  refine ⟨fun h => ?_, fun h => ?_, fun h => ?_⟩
  · rw [runSynthesis, if_neg (by rw [h]; decide)]
  · rw [runSynthesis, if_neg (by rw [h]; decide)]
  · rw [runSynthesis, if_pos h]

def boundaryEnv : Env :=
  ⟨true, true, fun _ => .ok ("SINGLE-PASS-RESULT".data),
   fun _ => .error "notes-call-failed"⟩

def boundaryResult : AssembleResult := ⟨[], [], MULTIPASS_THRESHOLD_CHARS, []⟩

/-- Witness for the amended C2 theorem: at exactly the threshold the
single-pass call is made. -/
theorem multipassBoundary_witness :
    runSynthesis boundaryEnv boundaryResult =
      singlePassCall boundaryEnv boundaryResult.content :=
  (multipassBoundary boundaryEnv boundaryResult).2.1 rfl

/-- A PDF whose extracted text is 4000 characters long (4000 × `'a'`),
4 pages (density 1000, no visual fallback), extraction succeeding.  Ten
of these files give an aggregate extracted total of exactly
`MULTIPASS_THRESHOLD_CHARS`. -/
def pdf4kData : PdfData := ⟨List.replicate 4000 'a', some 4⟩

def pdf4k : UploadedFile :=
  ⟨"brief.pdf".data, ".pdf", 3, "", .ok pdf4kData,
   fun _ => true, fun _ => "", fun _ => true⟩

lemma pdf4k_text_len : pdf4kData.text.length = 4000 :=
  List.length_replicate 4000 'a'

lemma pdf4k_not_ws :
    ¬ (normalizeNewlines pdf4kData.text).all isJsWhitespace = true := by
  have hmem : 'a' ∈ pdf4kData.text :=
    List.mem_replicate.mpr ⟨by decide, rfl⟩
  have hnocr : '\r' ∉ pdf4kData.text := fun hm =>
    absurd (List.mem_replicate.mp hm).2 (by decide)
  rw [normalizeNewlines_no_cr _ hnocr, List.all_eq_true]
  intro hall
  have := hall 'a' hmem
  simp [isJsWhitespace] at this

lemma pdf4k_no_visual :
    pdfVisualPart true pdf4k pdf4kData.text.length (pdf4kData.numpages.getD 0) =
      ([], []) := by
  rw [pdfVisualPart, if_neg]
  rw [pdf4k_text_len]
  show ¬ shouldRenderVisual 4000 4 = true
  decide

lemma pdf4k_no_visual1 :
    (pdfVisualPart true pdf4k pdf4kData.text.length
      (pdf4kData.numpages.getD 0)).1 = [] := by
  rw [pdf4k_no_visual]

lemma processFile_pdf4k :
    processFile true pdf4k = .ok (processPdf true pdf4k pdf4kData) := by
  rw [processFile, if_neg (by decide), if_pos (by decide)]
  rfl

lemma processPdf_pdf4k_total :
    (processPdf true pdf4k pdf4kData).totalExtractedPdfChars = 4000 := by
  show pdf4kData.text.length = 4000
  exact pdf4k_text_len

/-- Folding the assembler over `n` copies of one successfully-processed
file: the extracted-char total is `n` times the per-file total, and the
per-file content blocks occur in the accumulated content. -/
lemma assembleLoop_replicate (canR : Bool) (f : UploadedFile) (r : AssembleResult)
    (h : processFile canR f = .ok r) :
    ∀ n, ∃ R, assembleLoop canR (List.replicate n f) = .ok R ∧
      R.totalExtractedPdfChars = n * r.totalExtractedPdfChars ∧
      (∀ t, ContentBlock.text t ∈ R.content → ContentBlock.text t ∈ r.content) ∧
      (0 < n → ∀ b ∈ r.content, b ∈ R.content)
  | 0 => by
    refine ⟨⟨[], [], 0, []⟩, ?_, by simp, ?_, ?_⟩
    · rw [List.replicate_zero, assembleLoop]
    · intro t hmem; simp at hmem
    · intro h0; omega
  | n + 1 => by
    obtain ⟨R, hR, hRtot, hRmem, _⟩ :=
      assembleLoop_replicate canR f r h n
    refine ⟨⟨r.content ++ R.content, r.pdfDiagnostics ++ R.pdfDiagnostics,
        r.totalExtractedPdfChars + R.totalExtractedPdfChars,
        r.leftoverRenderTemps ++ R.leftoverRenderTemps⟩, ?_, ?_, ?_, ?_⟩
    · rw [List.replicate_succ, assembleLoop, h, hR]
    · show r.totalExtractedPdfChars + R.totalExtractedPdfChars = _
      rw [hRtot]
      ring
    · intro t hmem
      rcases List.mem_append.mp hmem with hm | hm
      · exact hm
      · exact hRmem t hm
    · intro _ b hb
      exact List.mem_append_left _ hb

/-- Lifting a successful `assembleLoop` run to `createContentWithFiles`
with a leading instruction message. -/
lemma createContent_of_loop (canR : Bool) (files : List UploadedFile)
    (R : AssembleResult) (h : assembleLoop canR files = .ok R) (msg : List Char) :
    createContentWithFiles canR files (some msg) =
      .ok ⟨ContentBlock.text msg :: R.content, R.pdfDiagnostics,
           R.totalExtractedPdfChars, R.leftoverRenderTemps⟩ := by
  rw [createContentWithFiles, h]
  rfl

/-- C2 (counterexample): a concrete generate request (ten uploaded PDFs,
4000 extracted characters each) whose aggregate extracted PDF character
count is EXACTLY the multi-pass threshold takes the single-pass path
(one direct synthesis call), not the multi-pass path — under an
environment where the notes calls fail, the multi-pass protocol on the
same content would have failed, while the request succeeds with the
single-pass result. -/
theorem multipassBoundary_counterexample :
    ∃ r, createContentWithFiles true (List.replicate 10 pdf4k)
        (some instructionMessage) = .ok r ∧
      r.totalExtractedPdfChars = MULTIPASS_THRESHOLD_CHARS ∧
      runSynthesis boundaryEnv r = .ok ("SINGLE-PASS-RESULT".data) ∧
      runMultiPassBreakdown boundaryEnv r.content = .error "notes-call-failed" := by
  obtain ⟨R, hR, hRtot, hRmem, hRfrom⟩ :=
    assembleLoop_replicate true pdf4k _ processFile_pdf4k 10
  have hRtot40 : R.totalExtractedPdfChars = MULTIPASS_THRESHOLD_CHARS := by
    rw [hRtot, processPdf_pdf4k_total]
    decide
  refine ⟨_, createContent_of_loop true _ R hR instructionMessage, ?_, ?_, ?_⟩
  · exact hRtot40
  · rw [runSynthesis, if_neg]
    · rfl
    · show ¬ MULTIPASS_THRESHOLD_CHARS < R.totalExtractedPdfChars
      rw [hRtot40]
      omega
  · show runMultiPassBreakdown boundaryEnv (ContentBlock.text instructionMessage ::
        R.content) = _
    have hEN : boundaryEnv.extractNotes =
        fun _ => Except.error "notes-call-failed" := rfl
    rw [runMultiPassBreakdown, hEN]
    have hchunks := chunkText_ne_nil pdf4kData.text
      PDF_TEXT_CHUNK_CHARS PDF_TEXT_CHUNK_OVERLAP pdf4k_not_ws
    obtain ⟨c, cs, hcs⟩ := List.exists_cons_of_ne_nil hchunks
    have hcontent : (processPdf true pdf4k pdf4kData).content =
        pdfTextPart pdf4k (chunkText pdf4kData.text
          PDF_TEXT_CHUNK_CHARS PDF_TEXT_CHUNK_OVERLAP) := by
      rw [processPdf_content, pdf4k_no_visual1, List.nil_append]
    have hblock : ContentBlock.text (chunkBlockText pdf4k.originalname 0
        (chunkText pdf4kData.text PDF_TEXT_CHUNK_CHARS PDF_TEXT_CHUNK_OVERLAP).length c) ∈
        (processPdf true pdf4k pdf4kData).content := by
      rw [hcontent, pdfTextPart, if_neg (by rw [hcs]; simp)]
      rw [hcs, chunkBlocks]
      exact List.mem_cons_self _ _
    have hgen : isGenericInstruction (ContentBlock.text (chunkBlockText
        pdf4k.originalname 0
        (chunkText pdf4kData.text PDF_TEXT_CHUNK_CHARS PDF_TEXT_CHUNK_OVERLAP).length c)) =
        false := by
      obtain ⟨t', ht⟩ := chunkBlockText_head pdf4k.originalname 0
        (chunkText pdf4kData.text PDF_TEXT_CHUNK_CHARS PDF_TEXT_CHUNK_OVERLAP).length c
      exact isGenericInstruction_of_head _ t' ht
    have hfil : ∃ b ∈ (ContentBlock.text instructionMessage ::
        R.content).filter ContentBlock.isTextBlock,
        isGenericInstruction b = false := by
      refine ⟨_, ?_, hgen⟩
      rw [List.mem_filter]
      refine ⟨List.mem_cons_of_mem _ (hRfrom (by omega) _ hblock), rfl⟩
    rw [notesLoop_error "notes-call-failed" _ hfil]

/-! ## Claim C1: extraction failures abort the request -/

lemma processFile_extract_error (canR : Bool) (f : UploadedFile) (e : String)
    (hpdf : getMediaType f.ext = "application/pdf")
    (herr : f.extractResult = .error e) :
    processFile canR f = .error e := by
  rw [processFile, hpdf]
  rw [if_neg (by decide), if_pos rfl, herr]

lemma assembleLoop_error_of_mem (canR : Bool) :
    ∀ (files : List UploadedFile),
      (∃ f ∈ files, ∃ e, processFile canR f = .error e) →
      ∃ e', assembleLoop canR files = .error e'
  | [], h => by simp at h
  | g :: rest, h => by
    rw [assembleLoop]
    cases hg : processFile canR g with
    | error e => exact ⟨e, rfl⟩
    | ok r =>
      have hrest : ∃ f ∈ rest, ∃ e, processFile canR f = .error e := by
        obtain ⟨f, hf, e, hfe⟩ := h
        rcases List.mem_cons.mp hf with rfl | hf'
        · rw [hg] at hfe; cases hfe
        · exact ⟨f, hf', e, hfe⟩
      obtain ⟨e', hrest'⟩ := assembleLoop_error_of_mem canR rest hrest
      rw [hrest']
      exact ⟨e', rfl⟩

/-- C1 (amended): an extraction failure on any uploaded PDF is NOT caught
by the Content Assembler — there is no try/catch around `extractPdfText`
(server.js line 344) — so it propagates to the route's top-level catch and
the whole generate request aborts with the 500 response
"Failed to generate breakdown"; no breakdown is produced for the other
files. -/
theorem extractionFailure_aborts_request (env : Env) (files : List UploadedFile)
    (disk : List Nat) (hkey : env.apiKeySet = true)
    (f : UploadedFile) (hf : f ∈ files)
    (hpdf : getMediaType f.ext = "application/pdf")
    (e : String) (herr : f.extractResult = .error e) :
    (generateBreakdown env files disk).1 =
      ApiResponse.serverError "Failed to generate breakdown" := by
  obtain ⟨e', hloop⟩ := assembleLoop_error_of_mem env.canRenderPdfPages files
    ⟨f, hf, e, processFile_extract_error env.canRenderPdfPages f e hpdf herr⟩
  show generateResponse env files = _
  rw [generateResponse]
  rw [if_neg (by
    intro h0
    rw [List.length_eq_zero] at h0
    subst h0
    simp at hf)]
  rw [hkey]
  rw [if_neg (by simp)]
  rw [createContentWithFiles, hloop]

def envC1 : Env :=
  ⟨true, true, fun _ => .ok ("BREAKDOWN".data), fun _ => .ok ("NOTES".data)⟩

/-- A PDF upload whose text extraction throws (e.g. the unsupported
pdf-parse module shape error of server.js lines 186-189). -/
def failingPdf : UploadedFile :=
  ⟨"bad.pdf".data, ".pdf", 1, "",
   .error "Unsupported pdf-parse module shape.",
   fun _ => true, fun _ => "", fun _ => true⟩

/-- An identical request whose PDF extracts fine, for contrast. -/
def okPdf : UploadedFile :=
  ⟨"good.pdf".data, ".pdf", 2, "",
   .ok ⟨"hello production brief".data, some 1⟩,
   fun _ => true, fun _ => "IMG", fun _ => true⟩

/-- C1 (counterexample): with the credential set and one uploaded PDF
whose extraction fails entirely, the generate request does NOT complete
with a breakdown: it answers with the 500 error
"Failed to generate breakdown" — the extraction failure aborts the whole
request, contrary to the claim.  The same request with a successfully
extracting PDF succeeds. -/
theorem extractionFailure_counterexample :
    (generateBreakdown envC1 [failingPdf] [1]).1 =
      ApiResponse.serverError "Failed to generate breakdown" ∧
    ((generateBreakdown envC1 [failingPdf] [1]).1).isSuccess = false ∧
    ((generateBreakdown envC1 [okPdf] [2]).1).isSuccess = true := by
  decide

/-- Witness for the amended C1 theorem at the same concrete request. -/
theorem extractionFailure_aborts_request_witness :
    (generateBreakdown envC1 [failingPdf] [1]).1 =
      ApiResponse.serverError "Failed to generate breakdown" :=
  extractionFailure_aborts_request envC1 [failingPdf] [1] rfl failingPdf
    (List.mem_cons_self failingPdf []) (by decide)
    "Unsupported pdf-parse module shape." rfl

/-! ## Claim C8: the notes pass excludes exactly the leading instruction -/

/-- C8: for content assembled with the generate route's leading
instruction message, the text blocks are the instruction block followed
by per-file blocks, of which NONE matches the generic-instruction test
(every assembled file block starts with `=====`); hence the notes pass
skips exactly the single leading instruction block, issues one
independent notes request per remaining text block, and returns the notes
in original block order. -/
theorem multipassNotes_exclusion (g : List Char → List Char) (canR : Bool)
    (files : List UploadedFile) (r : AssembleResult)
    (hok : createContentWithFiles canR files (some instructionMessage) = .ok r) :
    ∃ rest, r.content.filter ContentBlock.isTextBlock =
        ContentBlock.text instructionMessage :: rest ∧
      isGenericInstruction (ContentBlock.text instructionMessage) = true ∧
      (∀ b ∈ rest, isGenericInstruction b = false) ∧
      notesLoop (fun u => .ok (g u)) (r.content.filter ContentBlock.isTextBlock) =
        .ok (rest.map (fun b => g b.textOf)) := by
  rw [createContentWithFiles] at hok
  cases hal : assembleLoop canR files with
  | error e => rw [hal] at hok; cases hok
  | ok r0 =>
    rw [hal] at hok
    injection hok with h1
    subst h1
    have hrest : ∀ b ∈ r0.content.filter ContentBlock.isTextBlock,
        isGenericInstruction b = false := by
      intro b hb
      obtain ⟨hmem, htb⟩ := List.mem_filter.mp hb
      cases b with
      | image mt d => cases htb
      | text t =>
        obtain ⟨t', ht⟩ := assembleLoop_text_head canR files r0 hal t hmem
        exact isGenericInstruction_of_head t t' ht
    have hfc : (ContentBlock.text instructionMessage ::
        r0.content).filter ContentBlock.isTextBlock =
        ContentBlock.text instructionMessage ::
          r0.content.filter ContentBlock.isTextBlock := by
      rw [List.filter_cons, if_pos (by rfl)]
    refine ⟨r0.content.filter ContentBlock.isTextBlock, ?_, instructionMessage_generic,
      hrest, ?_⟩
    · show (ContentBlock.text instructionMessage ::
        r0.content).filter ContentBlock.isTextBlock = _
      exact hfc
    · show notesLoop _ ((ContentBlock.text instructionMessage ::
        r0.content).filter ContentBlock.isTextBlock) = _
      rw [hfc, notesLoop, if_pos instructionMessage_generic]
      exact notesLoop_ok_of_no_generic g _ hrest

/-- Witness for C8 at the empty file list: the assembled content is just
the instruction block; it is excluded and the notes list is empty. -/
theorem multipassNotes_exclusion_witness :
    ∃ rest, (AssembleResult.mk [ContentBlock.text instructionMessage] [] 0
        []).content.filter ContentBlock.isTextBlock =
        ContentBlock.text instructionMessage :: rest ∧
      isGenericInstruction (ContentBlock.text instructionMessage) = true ∧
      (∀ b ∈ rest, isGenericInstruction b = false) ∧
      notesLoop (fun u => .ok (u ++ u))
          ((AssembleResult.mk [ContentBlock.text instructionMessage] [] 0
            []).content.filter ContentBlock.isTextBlock) =
        .ok (rest.map (fun b => b.textOf ++ b.textOf)) :=
  multipassNotes_exclusion (fun u => u ++ u) true []
    (AssembleResult.mk [ContentBlock.text instructionMessage] [] 0 []) rfl

end ProductionBreakdown
